import Mathlib

/-!
Verification of the field-force tracker's check-in / daily-report core.

The definitions below are a shallow embedding of the repository's code:
* `dailySummary` embeds `GET /api/reports/daily-summary` from
  `backend/routes/reports.js` (date validation, the `LEFT JOIN` employee
  breakdown query, the separate unique-clients query, and the JS
  aggregation/rounding code), together with the `requireManager` middleware
  from `backend/middleware/auth.js` (quoted in `QUESTIONS.md`).
* The `Conc` namespace embeds the read-then-insert check-in handler of
  `backend/routes/checkin.js` (quoted in `QUESTIONS.md`, Question 6) as a
  small-step interleaving model over a shared checkins table.

Timestamps are modelled by their SQLite projections actually used by the
code: `DATE(checkin_time)` as a string and `julianday(...)` as a rational.
JS `Math.round` is modelled as the floor of `x + 1/2` on rationals.
-/

namespace FieldForce

/-- A row of the `users` table (the columns `reports.js` reads). -/
structure User where
  id : Nat
  name : String
  email : String
  role : String
  managerId : Option Nat
deriving Repr, DecidableEq

/-- A row of the `checkins` table, with its timestamps represented by the
projections the report queries use: `checkinDay` is `DATE(checkin_time)`,
`checkinJD`/`checkoutJD` are `julianday(checkin_time)`/`julianday(checkout_time)`
(`checkoutJD = none` models `checkout_time IS NULL`). -/
structure Checkin where
  id : Nat
  employeeId : Nat
  clientId : Nat
  checkinDay : String
  checkinJD : ℚ
  checkoutJD : Option ℚ
  status : String
deriving Repr, DecidableEq

/-- The database state visible to the report route. -/
structure DB where
  users : List User
  checkins : List Checkin
deriving Repr, DecidableEq

/-- JS `Math.round`: round half towards positive infinity. -/
def jsRound (q : ℚ) : ℤ := ⌊q + 1 / 2⌋

/-- `Math.round(x * 10) / 10`, the rounding to one decimal used by the route. -/
def round1 (q : ℚ) : ℚ := (jsRound (q * 10) : ℚ) / 10

/-- Evaluation rule for `jsRound` at concrete rationals. -/
theorem jsRound_eq {q : ℚ} {n : ℤ} (h1 : (n : ℚ) ≤ q + 1 / 2) (h2 : q + 1 / 2 < n + 1) :
    jsRound q = n := by
  unfold jsRound
  exact Int.floor_eq_iff.mpr ⟨h1, h2⟩

/-- The SQL `CASE WHEN ch.checkout_time IS NOT NULL THEN
(julianday(ch.checkout_time) - julianday(ch.checkin_time)) * 24 ELSE 0 END`
expression: hours contributed by one checkin row. -/
def hoursOfRow (c : Checkin) : ℚ :=
  match c.checkoutJD with
  | some out => (out - c.checkinJD) * 24
  | none => 0

/-- The `LEFT JOIN` condition of the employee query, specialised to one
employee: checkins with `ch.employee_id = eid AND DATE(ch.checkin_time) = date`. -/
def dayCheckinsOf (db : DB) (date : String) (eid : Nat) : List Checkin :=
  db.checkins.filter (fun c => c.employeeId == eid && c.checkinDay == date)

/-- The `WHERE u.manager_id = ? AND u.role = 'employee'` condition. -/
def matchesTeam (mid : Nat) (u : User) : Bool :=
  u.managerId == some mid && u.role == "employee"

/-- The optional `AND u.id = ?` employee filter of the employee query. -/
def matchesFilter (filt : Option Nat) (u : User) : Bool :=
  match filt with
  | some eid => u.id == eid
  | none => true

/-- Lexicographic comparison of character lists by codepoint — the text
ordering of SQLite's default `BINARY` collation (UTF-8 byte order agrees with
codepoint order). -/
def strLeB : List Char → List Char → Bool
  | [], _ => true
  | _ :: _, [] => false
  | c :: cs, d :: ds =>
    if c.toNat < d.toNat then true
    else if d.toNat < c.toNat then false
    else strLeB cs ds

theorem strLeB_cons_iff {c d : Char} {cs ds : List Char} :
    strLeB (c :: cs) (d :: ds) = true ↔
      c.toNat < d.toNat ∨ (c.toNat = d.toNat ∧ strLeB cs ds = true) := by
  by_cases h1 : c.toNat < d.toNat
  · simp [strLeB, h1]
  · by_cases h2 : d.toNat < c.toNat
    · simp [strLeB, h1, h2, Nat.ne_of_gt h2]
    · have : c.toNat = d.toNat := Nat.le_antisymm (Nat.le_of_not_lt h2) (Nat.le_of_not_lt h1)
      simp [strLeB, h1, h2, this]

theorem strLeB_total : ∀ a b : List Char, strLeB a b = true ∨ strLeB b a = true
  | [], _ => Or.inl rfl
  | _ :: _, [] => Or.inr rfl
  | c :: cs, d :: ds => by
    rcases Nat.lt_trichotomy c.toNat d.toNat with h | h | h
    · exact Or.inl (strLeB_cons_iff.mpr (Or.inl h))
    · rcases strLeB_total cs ds with h' | h'
      · exact Or.inl (strLeB_cons_iff.mpr (Or.inr ⟨h, h'⟩))
      · exact Or.inr (strLeB_cons_iff.mpr (Or.inr ⟨h.symm, h'⟩))
    · exact Or.inr (strLeB_cons_iff.mpr (Or.inl h))

theorem strLeB_trans :
    ∀ a b c : List Char, strLeB a b = true → strLeB b c = true → strLeB a c = true
  | [], _, _, _, _ => rfl
  | _ :: _, [], _, h, _ => by simp [strLeB] at h
  | _ :: _, _ :: _, [], _, h => by simp [strLeB] at h
  | x :: xs, y :: ys, z :: zs, h1, h2 => by
    rcases strLeB_cons_iff.mp h1 with hxy | ⟨hxy, hxy'⟩ <;>
      rcases strLeB_cons_iff.mp h2 with hyz | ⟨hyz, hyz'⟩
    · exact strLeB_cons_iff.mpr (Or.inl (Nat.lt_trans hxy hyz))
    · exact strLeB_cons_iff.mpr (Or.inl (hyz ▸ hxy))
    · exact strLeB_cons_iff.mpr (Or.inl (hxy ▸ hyz))
    · exact strLeB_cons_iff.mpr
        (Or.inr ⟨hxy.trans hyz, strLeB_trans xs ys zs hxy' hyz'⟩)

/-- The name comparison of `ORDER BY u.name`. -/
def nameLe (u v : User) : Prop := strLeB u.name.toList v.name.toList = true

instance : DecidableRel nameLe := fun u v =>
  inferInstanceAs (Decidable (strLeB u.name.toList v.name.toList = true))

instance : IsTotal User nameLe := ⟨fun u v => strLeB_total u.name.toList v.name.toList⟩

instance : IsTrans User nameLe :=
  ⟨fun u v w h h' => strLeB_trans u.name.toList v.name.toList w.name.toList h h'⟩

/-- The rows of the employee query, in `ORDER BY u.name` order: direct reports
with role `employee`, optionally restricted by the employee filter. -/
def selectedEmployees (db : DB) (mid : Nat) (filt : Option Nat) : List User :=
  List.insertionSort nameLe
    (db.users.filter (fun u => matchesTeam mid u && matchesFilter filt u))

/-- One grouped row of the employee query (full-precision `hours_worked`,
exactly as SQL returns it before the JS output rounding). -/
structure BreakdownEntry where
  employee_id : Nat
  employee_name : String
  employee_email : String
  total_checkins : Nat
  clients_visited : Nat
  hours_worked : ℚ
deriving Repr, DecidableEq

/-- `GROUP BY u.id, u.name, u.email` aggregation for one employee:
`COUNT(ch.id)`, `COUNT(DISTINCT ch.client_id)`, and the `COALESCE(SUM(...), 0)`
of `hoursOfRow`. -/
def rawRow (db : DB) (date : String) (u : User) : BreakdownEntry :=
  let rows := dayCheckinsOf db date u.id
  { employee_id := u.id
    employee_name := u.name
    employee_email := u.email
    total_checkins := rows.length
    clients_visited := (rows.map (·.clientId)).dedup.length
    hours_worked := (rows.map hoursOfRow).sum }

/-- The JS output formatting of a breakdown entry:
`hours_worked: Math.round(emp.hours_worked * 10) / 10`. -/
def roundRow (e : BreakdownEntry) : BreakdownEntry :=
  { e with hours_worked := round1 e.hours_worked }

/-- The `INNER JOIN users u ON ch.employee_id = u.id WHERE u.manager_id = ?`
condition of the unique-clients query: the checkin belongs to some direct
report of `mid`, of any role. -/
def isTeamCheckin (db : DB) (mid : Nat) (c : Checkin) : Bool :=
  db.users.any (fun u => u.id == c.employeeId && u.managerId == some mid)

/-- The separate unique-clients query's row set: `checkins ch INNER JOIN users u
ON ch.employee_id = u.id WHERE u.manager_id = ? AND DATE(ch.checkin_time) = ?`.
Note: no `u.role = 'employee'` condition and no employee filter. -/
def teamDayCheckins (db : DB) (mid : Nat) (date : String) : List Checkin :=
  db.checkins.filter (fun c => c.checkinDay == date && isTeamCheckin db mid c)

/-- `COUNT(DISTINCT ch.client_id)` of the unique-clients query. -/
def uniqueClientsCount (db : DB) (mid : Nat) (date : String) : Nat :=
  ((teamDayCheckins db mid date).map (·.clientId)).dedup.length

/-- The `team_summary` object built by the route. -/
structure TeamSummary where
  total_employees : Nat
  employees_checked_in : Nat
  total_checkins : Nat
  total_hours_worked : ℚ
  unique_clients_visited : Nat
deriving Repr, DecidableEq

/-- The `data` object of a successful response. -/
structure SummaryData where
  date : String
  team_summary : TeamSummary
  employee_breakdown : List BreakdownEntry
deriving Repr, DecidableEq

/-- The successful-path aggregation of the route: the employee query rows,
the JS `teamSummary` computation over them, the unique-clients query, and the
formatted breakdown. -/
def dailySummaryData (db : DB) (mid : Nat) (date : String) (filt : Option Nat) :
    SummaryData :=
  let rows := (selectedEmployees db mid filt).map (rawRow db date)
  { date := date
    team_summary :=
      { total_employees := rows.length
        employees_checked_in := (rows.filter (fun e => e.total_checkins > 0)).length
        total_checkins := (rows.map (·.total_checkins)).sum
        total_hours_worked := round1 ((rows.map (·.hours_worked)).sum)
        unique_clients_visited := uniqueClientsCount db mid date }
    employee_breakdown := rows.map roundRow }

/-- The errors the route can return before reaching the aggregation:
`Forbidden` is the `requireManager` 403, `MissingDate` the
"Date parameter is required" 400, `InvalidDateFormat` the
"Invalid date format" 400. -/
inductive ApiError where
  | Forbidden
  | MissingDate
  | InvalidDateFormat
deriving Repr, DecidableEq

/-- The two 400 responses of the route's date validation (the
`InvalidDate` class of the spec). -/
def isValidationError (e : ApiError) : Bool :=
  e == .MissingDate || e == .InvalidDateFormat

/-- The regex used to validate the `date` query param:
four digits, a dash, two digits, a dash, two digits. -/
def validDateFormat (s : String) : Bool :=
  match s.toList with
  | [y1, y2, y3, y4, s1, m1, m2, s2, d1, d2] =>
    y1.isDigit && y2.isDigit && y3.isDigit && y4.isDigit && s1 == '-' &&
      m1.isDigit && m2.isDigit && s2 == '-' && d1.isDigit && d2.isDigit
  | _ => false

/-- The authenticated caller as the middleware leaves it in `req.user`. -/
structure Caller where
  id : Nat
  role : String
deriving Repr, DecidableEq

/-- `GET /api/reports/daily-summary`: the `requireManager` middleware
(role other than `manager` gives 403), then the missing-date check, then
the date-format check, then the aggregation. `date?` is the raw `date` query
parameter (`none` when absent), `filt` the optional `employee_id`. -/
def dailySummary (caller : Caller) (date? : Option String) (filt : Option Nat)
    (db : DB) : Except ApiError SummaryData :=
  if caller.role ≠ "manager" then .error .Forbidden
  else
    match date? with
    | none => .error .MissingDate
    | some date =>
      if validDateFormat date = false then .error .InvalidDateFormat
      else .ok (dailySummaryData db caller.id date filt)

/-!
### The check-in handler's read-then-insert sequence

`POST /api/checkin` (quoted in `QUESTIONS.md`) first SELECTs the caller's
active check-ins and returns the `AlreadyCheckedIn` 400 when any exists, and
only then INSERTs the new `checked_in` row — two separate `pool.execute`
calls with no transaction or unique constraint between them. The model below
makes each `pool.execute` one atomic step and lets a scheduler interleave
several concurrent requests of the same employee.
-/

namespace Conc

/-- Where one in-flight check-in request stands: before its SELECT, after a
SELECT that found no active row, finished with 201, or finished with the
`AlreadyCheckedIn` 400. -/
inductive ReqPhase where
  | start
  | readDone
  | succeeded
  | failedAlready
deriving Repr, DecidableEq

/-- A row of the `checkins` table as the handler's two statements see it. -/
structure Row where
  employeeId : Nat
  status : String
deriving Repr, DecidableEq

/-- The SELECT of the handler: rows with `employee_id = eid AND status = 'checked_in'`. -/
def activeRows (table : List Row) (eid : Nat) : List Row :=
  table.filter (fun r => r.employeeId == eid && r.status == "checked_in")

/-- Shared state: the `checkins` table and the phase of each concurrent
request (all requests are check-ins by employee `eid`). -/
structure ConcState where
  table : List Row
  phases : List ReqPhase
deriving Repr, DecidableEq

/-- One atomic step of request `i`: from `start` it runs the SELECT (failing
with the 400 when an active row exists, otherwise remembering that none did);
from `readDone` it runs the INSERT and returns 201. Finished requests and
out-of-range indices do nothing. -/
def stepReq (eid : Nat) (s : ConcState) (i : Nat) : ConcState :=
  match s.phases.get? i with
  | some .start =>
    if (activeRows s.table eid).length > 0 then
      { s with phases := s.phases.set i .failedAlready }
    else
      { s with phases := s.phases.set i .readDone }
  | some .readDone =>
    { table := s.table ++ [⟨eid, "checked_in"⟩], phases := s.phases.set i .succeeded }
  | _ => s

/-- Run a schedule: each entry names the request that takes its next atomic
step. -/
def run (eid : Nat) (sched : List Nat) (s : ConcState) : ConcState :=
  sched.foldl (stepReq eid) s

end Conc

/-- The route's error for a missing (`MissingDate`) versus syntactically bad
(`InvalidDateFormat`) `date` parameter. -/
def dateError (date? : Option String) : ApiError :=
  match date? with
  | none => .MissingDate
  | some _ => .InvalidDateFormat

/-- Extract the payload of a successful route call. -/
def okData : Except ApiError SummaryData → Option SummaryData
  | .ok d => some d
  | .error _ => none

/-- A ledger where manager `1`'s only direct report has role `manager` and one
open checkin on 2024-01-01. -/
def managerReportDB : DB :=
  { users :=
      [ { id := 2, name := "R", email := "r", role := "manager", managerId := some 1 } ]
    checkins :=
      [ { id := 30, employeeId := 2, clientId := 200, checkinDay := "2024-01-01",
          checkinJD := 0, checkoutJD := none, status := "checked_in" } ] }

/-- Inversion of a successful route call: the caller passed `requireManager`,
the date passed the format check, and the payload is the aggregation. -/
theorem dailySummary_ok_elim {caller : Caller} {date : String} {filt : Option Nat}
    {db : DB} {d : SummaryData}
    (h : dailySummary caller (some date) filt db = .ok d) :
    caller.role = "manager" ∧ validDateFormat date = true ∧
      d = dailySummaryData db caller.id date filt := by
  dsimp only [dailySummary] at h
  split at h
  · exact absurd h (by simp)
  · split at h
    · exact absurd h (by simp)
    · rename_i hr hv
      injection h with h'
      exact ⟨not_not.mp hr, eq_true_of_ne_false hv, h'.symm⟩

/-- One application of the route's one-decimal rounding moves a value by at
most `0.05`. -/
theorem round1_sub_abs_le (q : ℚ) : |round1 q - q| ≤ 1 / 20 := by
  have h1 : ((jsRound (q * 10) : ℤ) : ℚ) ≤ q * 10 + 1 / 2 := Int.floor_le _
  have h2 : q * 10 + 1 / 2 < (jsRound (q * 10) : ℚ) + 1 := Int.lt_floor_add_one _
  rw [round1, abs_le]
  constructor <;> [linarith; linarith]

/-- Rounding each summand to one decimal moves a sum by at most `0.05` per
summand. -/
theorem sum_round1_sub_abs_le (l : List ℚ) :
    |(l.map round1).sum - l.sum| ≤ (l.length : ℚ) / 20 := by
  induction l with
  | nil => simp
  | cons q l ih =>
    simp only [List.map_cons, List.sum_cons, List.length_cons]
    have h := round1_sub_abs_le q
    have habs : |round1 q + (l.map round1).sum - (q + l.sum)| ≤
        |round1 q - q| + |(l.map round1).sum - l.sum| := by
      have := abs_add (round1 q - q) ((l.map round1).sum - l.sum)
      calc |round1 q + (l.map round1).sum - (q + l.sum)|
          = |(round1 q - q) + ((l.map round1).sum - l.sum)| := by ring_nf
        _ ≤ |round1 q - q| + |(l.map round1).sum - l.sum| := this
    have hc : ((l.length + 1 : ℕ) : ℚ) = (l.length : ℚ) + 1 := by push_cast; ring
    rw [hc]
    linarith

/-- Evaluation rule for `round1` at concrete rationals. -/
theorem round1_eq {q : ℚ} {n : ℤ} (h1 : (n : ℚ) ≤ q * 10 + 1 / 2)
    (h2 : q * 10 + 1 / 2 < n + 1) : round1 q = (n : ℚ) / 10 := by
  rw [round1, jsRound_eq h1 h2]

/-- A small ledger: manager `1` with employees `B` (id 2, one closed one-hour
checkin on 2024-01-01 and one open checkin on 2024-01-02) and `A` (id 3, no
checkins). -/
def sampleDB : DB :=
  { users :=
      [ { id := 1, name := "M", email := "m", role := "manager", managerId := none }
      , { id := 2, name := "B", email := "b", role := "employee", managerId := some 1 }
      , { id := 3, name := "A", email := "a", role := "employee", managerId := some 1 } ]
    checkins :=
      [ { id := 10, employeeId := 2, clientId := 100, checkinDay := "2024-01-01",
          checkinJD := 0, checkoutJD := some (1 / 24), status := "checked_out" }
      , { id := 11, employeeId := 2, clientId := 100, checkinDay := "2024-01-02",
          checkinJD := 1, checkoutJD := none, status := "checked_in" } ] }

/-- Membership in the employee query's row set. -/
theorem mem_selectedEmployees {db : DB} {mid : Nat} {filt : Option Nat} {u : User} :
    u ∈ selectedEmployees db mid filt ↔
      u ∈ db.users ∧ (matchesTeam mid u && matchesFilter filt u) = true := by
  unfold selectedEmployees
  rw [(List.perm_insertionSort nameLe _).mem_iff, List.mem_filter]

/-- The employee query returns one row per matching user. -/
theorem length_selectedEmployees (db : DB) (mid : Nat) (filt : Option Nat) :
    (selectedEmployees db mid filt).length =
      (db.users.filter (fun u => matchesTeam mid u && matchesFilter filt u)).length :=
  (List.perm_insertionSort nameLe _).length_eq

/-- Rounding zero gives zero. -/
theorem round1_zero : round1 0 = 0 := by
  rw [round1_eq (n := 0) (by norm_num) (by norm_num)]
  norm_num

/-- When a date has no checkins by any direct report of `mid`, the
`LEFT JOIN` matches nothing for a direct report. -/
theorem dayCheckinsOf_eq_nil {db : DB} {date : String} {mid : Nat} {u : User}
    (h0 : ∀ c ∈ db.checkins, c.checkinDay = date → isTeamCheckin db mid c = false)
    (hu : u ∈ db.users) (hm : u.managerId = some mid) :
    dayCheckinsOf db date u.id = [] := by
  rw [dayCheckinsOf, List.filter_eq_nil_iff]
  intro c hc hpc
  rw [Bool.and_eq_true, beq_iff_eq, beq_iff_eq] at hpc
  have hfalse := h0 c hc hpc.2
  have htrue : isTeamCheckin db mid c = true := by
    rw [isTeamCheckin, List.any_eq_true]
    exact ⟨u, hu, by simp [hpc.1, hm]⟩
  rw [htrue] at hfalse
  cases hfalse

/-- A grouped row over an empty join is all zeros. -/
theorem rawRow_of_nil {db : DB} {date : String} {u : User}
    (h : dayCheckinsOf db date u.id = []) :
    rawRow db date u =
      { employee_id := u.id, employee_name := u.name, employee_email := u.email,
        total_checkins := 0, clients_visited := 0, hours_worked := 0 } := by
  unfold rawRow
  rw [h]
  rfl

/-- Five employees of manager `1`, each with one three-minute checkin
(`0.05` hours) on 2024-01-01. -/
def fiveShortVisitsDB : DB :=
  { users :=
      [ { id := 2, name := "A", email := "a", role := "employee", managerId := some 1 }
      , { id := 3, name := "B", email := "b", role := "employee", managerId := some 1 }
      , { id := 4, name := "C", email := "c", role := "employee", managerId := some 1 }
      , { id := 5, name := "D", email := "d", role := "employee", managerId := some 1 }
      , { id := 6, name := "E", email := "e", role := "employee", managerId := some 1 } ]
    checkins :=
      [ { id := 20, employeeId := 2, clientId := 100, checkinDay := "2024-01-01",
          checkinJD := 0, checkoutJD := some (1 / 480), status := "checked_out" }
      , { id := 21, employeeId := 3, clientId := 101, checkinDay := "2024-01-01",
          checkinJD := 0, checkoutJD := some (1 / 480), status := "checked_out" }
      , { id := 22, employeeId := 4, clientId := 102, checkinDay := "2024-01-01",
          checkinJD := 0, checkoutJD := some (1 / 480), status := "checked_out" }
      , { id := 23, employeeId := 5, clientId := 103, checkinDay := "2024-01-01",
          checkinJD := 0, checkoutJD := some (1 / 480), status := "checked_out" }
      , { id := 24, employeeId := 6, clientId := 104, checkinDay := "2024-01-01",
          checkinJD := 0, checkoutJD := some (1 / 480), status := "checked_out" } ] }

/-- C3 (counterexample): on `fiveShortVisitsDB` the call succeeds, the team
total is `0.3` but the breakdown entries sum to `0.5`: the difference is
`0.2 > 0.1`, so the claimed `0.1` tolerance fails. -/
theorem c3_counterexample :
    dailySummary ⟨1, "manager"⟩ (some "2024-01-01") none fiveShortVisitsDB =
        .ok (dailySummaryData fiveShortVisitsDB 1 "2024-01-01" none) ∧
    ¬(|(dailySummaryData fiveShortVisitsDB 1 "2024-01-01" none).team_summary.total_hours_worked -
        ((dailySummaryData fiveShortVisitsDB 1 "2024-01-01" none).employee_breakdown.map
          (·.hours_worked)).sum| ≤ 1 / 10) := by
  refine ⟨rfl, ?_⟩
  have e1 : round1 ((1 / 480 - 0) * 24 + 0) = (1 : ℤ) / 10 :=
    round1_eq (by norm_num) (by norm_num)
  have e5 : round1 ((1 / 480 - 0) * 24 + 0 + ((1 / 480 - 0) * 24 + 0 +
      ((1 / 480 - 0) * 24 + 0 + ((1 / 480 - 0) * 24 + 0 +
        ((1 / 480 - 0) * 24 + 0 + 0))))) = (3 : ℤ) / 10 :=
    round1_eq (by norm_num) (by norm_num)
  show ¬(|round1 ((1 / 480 - 0) * 24 + 0 + ((1 / 480 - 0) * 24 + 0 +
      ((1 / 480 - 0) * 24 + 0 + ((1 / 480 - 0) * 24 + 0 +
        ((1 / 480 - 0) * 24 + 0 + 0))))) -
      (round1 ((1 / 480 - 0) * 24 + 0) + (round1 ((1 / 480 - 0) * 24 + 0) +
        (round1 ((1 / 480 - 0) * 24 + 0) + (round1 ((1 / 480 - 0) * 24 + 0) +
          (round1 ((1 / 480 - 0) * 24 + 0) + 0)))))| ≤ 1 / 10)
  rw [e5]
  simp only [e1]
  norm_num [abs_of_pos]

/-- C3 (amended): for every successful DailySummary result, the team total
differs from the sum of the rounded breakdown entries by at most
`0.05 · (k + 1)` where `k` is the number of breakdown entries (one half-step
of the one-decimal rounding per entry plus one for the team-level rounding).
The flat `0.1` tolerance of the claim holds only for `k ≤ 1`. -/
theorem c3_total_hours_close_to_breakdown_sum (caller : Caller) (date : String)
    (filt : Option Nat) (db : DB) (d : SummaryData)
    (h : dailySummary caller (some date) filt db = .ok d) :
    |d.team_summary.total_hours_worked -
        (d.employee_breakdown.map (·.hours_worked)).sum| ≤
      ((d.employee_breakdown.length : ℚ) + 1) / 20 := by
  obtain ⟨-, -, hd⟩ := dailySummary_ok_elim h
  subst hd
  dsimp only [dailySummaryData]
  have hmap : (((selectedEmployees db caller.id filt).map (rawRow db date)).map
        roundRow).map (fun e => e.hours_worked) =
      (((selectedEmployees db caller.id filt).map (rawRow db date)).map
        (fun e => e.hours_worked)).map round1 := by
    simp only [List.map_map]
    rfl
  rw [hmap]
  set l := ((selectedEmployees db caller.id filt).map (rawRow db date)).map
    (fun e => e.hours_worked) with hl
  have hlen : ((((selectedEmployees db caller.id filt).map (rawRow db date)).map
      roundRow).length : ℚ) = (l.length : ℚ) := by
    simp [hl]
  rw [hlen]
  have h1 := round1_sub_abs_le l.sum
  have h2 := sum_round1_sub_abs_le l
  have h3 : |round1 l.sum - (l.map round1).sum| ≤
      |round1 l.sum - l.sum| + |(l.map round1).sum - l.sum| := by
    have habs := abs_add (round1 l.sum - l.sum) (l.sum - (l.map round1).sum)
    have hcomm : |l.sum - (l.map round1).sum| = |(l.map round1).sum - l.sum| :=
      abs_sub_comm _ _
    calc |round1 l.sum - (l.map round1).sum|
        = |(round1 l.sum - l.sum) + (l.sum - (l.map round1).sum)| := by ring_nf
      _ ≤ |round1 l.sum - l.sum| + |l.sum - (l.map round1).sum| := habs
      _ = |round1 l.sum - l.sum| + |(l.map round1).sum - l.sum| := by rw [hcomm]
  linarith

/-- C3 witness: the amended bound applied to a concrete successful call. -/
theorem c3_total_hours_close_to_breakdown_sum_witness :
    |(dailySummaryData sampleDB 1 "2024-01-01" none).team_summary.total_hours_worked -
        ((dailySummaryData sampleDB 1 "2024-01-01" none).employee_breakdown.map
          (·.hours_worked)).sum| ≤
      (((dailySummaryData sampleDB 1 "2024-01-01" none).employee_breakdown.length : ℚ) + 1) / 20 :=
  c3_total_hours_close_to_breakdown_sum ⟨1, "manager"⟩ "2024-01-01" none sampleDB _ rfl

/-- C1: the check-in handler's verify and insert steps are two separate
atomic operations, not one indivisible one. With two concurrent check-in
requests for employee `1` starting from no active check-in, the interleaving
that runs both SELECTs before both INSERTs lets both requests succeed and
leaves two `checked_in` rows for the employee — the claimed invariant
(at most one active row; exactly one success, the rest `AlreadyCheckedIn`)
is violated by the code. -/
theorem c1_concurrent_checkin_race :
    (Conc.run 1 [0, 1, 0, 1] ⟨[], [.start, .start]⟩).phases =
      [.succeeded, .succeeded] ∧
    (Conc.activeRows (Conc.run 1 [0, 1, 0, 1] ⟨[], [.start, .start]⟩).table 1).length = 2 ∧
    (Conc.run 1 [0, 0, 1, 1] ⟨[], [.start, .start]⟩).phases =
      [.succeeded, .failedAlready] := by
  decide

/-- C6: a missing or format-invalid `date` makes the route fail with the
corresponding validation error of the `InvalidDate` class; the result does
not depend on the ledger (no aggregation ran, no default date was
substituted). -/
theorem c6_invalid_date_rejected (caller : Caller) (date? : Option String)
    (filt : Option Nat) (db db' : DB) (hm : caller.role = "manager")
    (hd : ∀ s, date? = some s → validDateFormat s = false) :
    dailySummary caller date? filt db = .error (dateError date?) ∧
    dailySummary caller date? filt db = dailySummary caller date? filt db' ∧
    isValidationError (dateError date?) = true := by
  have hrole : ¬(caller.role ≠ "manager") := fun hn => hn hm
  cases date? with
  | none => refine ⟨?_, ?_, rfl⟩ <;> simp [dailySummary, hrole, dateError]
  | some s =>
    have hs := hd s rfl
    refine ⟨?_, ?_, rfl⟩ <;> simp [dailySummary, hrole, dateError, hs]

/-- C6 witness: a manager calling with the malformed date `not-a-date`
gets the format error on two different ledgers. -/
theorem c6_invalid_date_rejected_witness :
    dailySummary ⟨1, "manager"⟩ (some "not-a-date") none sampleDB =
      .error (dateError (some "not-a-date")) ∧
    dailySummary ⟨1, "manager"⟩ (some "not-a-date") none sampleDB =
      dailySummary ⟨1, "manager"⟩ (some "not-a-date") none fiveShortVisitsDB ∧
    isValidationError (dateError (some "not-a-date")) = true :=
  c6_invalid_date_rejected ⟨1, "manager"⟩ (some "not-a-date") none sampleDB
    fiveShortVisitsDB rfl
    (fun s hs => by cases Option.some.inj hs; decide)

/-- C7: a caller whose role is not `manager` gets `Forbidden`, and the result
does not depend on the ledger — no aggregation work is reflected in it. -/
theorem c7_forbidden_for_non_manager (caller : Caller) (date? : Option String)
    (filt : Option Nat) (db db' : DB) (h : caller.role ≠ "manager") :
    dailySummary caller date? filt db = .error .Forbidden ∧
    dailySummary caller date? filt db = dailySummary caller date? filt db' := by
  constructor <;> simp [dailySummary, h]

/-- C7 witness: an employee-role caller with a well-formed date is rejected
with `Forbidden` identically on two different ledgers. -/
theorem c7_forbidden_for_non_manager_witness :
    dailySummary ⟨2, "employee"⟩ (some "2024-01-01") none sampleDB =
      .error .Forbidden ∧
    dailySummary ⟨2, "employee"⟩ (some "2024-01-01") none sampleDB =
      dailySummary ⟨2, "employee"⟩ (some "2024-01-01") none fiveShortVisitsDB :=
  c7_forbidden_for_non_manager ⟨2, "employee"⟩ (some "2024-01-01") none sampleDB
    fiveShortVisitsDB (by decide)

/-- C8: the unique-clients query ignores the `employee_id` filter (and the
role restriction): a filtered call reports the same `unique_clients_visited`
as the unfiltered one, and the value is the distinct-client count over all
checkins that day by any user whose `manager_id` is the caller. -/
theorem c8_unique_clients_ignores_filter (caller : Caller) (date : String)
    (eid : Nat) (db : DB) (d1 d2 : SummaryData)
    (h1 : dailySummary caller (some date) (some eid) db = .ok d1)
    (h2 : dailySummary caller (some date) none db = .ok d2) :
    d1.team_summary.unique_clients_visited = d2.team_summary.unique_clients_visited ∧
    d1.team_summary.unique_clients_visited =
      ((teamDayCheckins db caller.id date).map (·.clientId)).dedup.length := by
  obtain ⟨-, -, hd1⟩ := dailySummary_ok_elim h1
  obtain ⟨-, -, hd2⟩ := dailySummary_ok_elim h2
  subst hd1
  subst hd2
  exact ⟨rfl, rfl⟩

/-- C8 witness: on `sampleDB`, filtering the report to employee `3` (who has
no checkins) leaves `unique_clients_visited` unchanged. -/
theorem c8_unique_clients_ignores_filter_witness :
    (dailySummaryData sampleDB 1 "2024-01-01" (some 3)).team_summary.unique_clients_visited =
      (dailySummaryData sampleDB 1 "2024-01-01" none).team_summary.unique_clients_visited ∧
    (dailySummaryData sampleDB 1 "2024-01-01" (some 3)).team_summary.unique_clients_visited =
      ((teamDayCheckins sampleDB 1 "2024-01-01").map (·.clientId)).dedup.length :=
  c8_unique_clients_ignores_filter ⟨1, "manager"⟩ "2024-01-01" 3 sampleDB _ _ rfl rfl

/-- C10: the employee breakdown of a successful result is sorted by employee
name (ascending, in the codepoint order of `ORDER BY u.name`), and the route
is deterministic: a second successful result from the same inputs is equal. -/
theorem c10_breakdown_sorted_by_name (caller : Caller) (date : String)
    (filt : Option Nat) (db : DB) (d : SummaryData)
    (h : dailySummary caller (some date) filt db = .ok d) :
    List.Pairwise (fun a b : String => strLeB a.toList b.toList = true)
      (d.employee_breakdown.map (·.employee_name)) ∧
    ∀ d', dailySummary caller (some date) filt db = .ok d' → d' = d := by
  obtain ⟨-, -, hd⟩ := dailySummary_ok_elim h
  constructor
  · subst hd
    dsimp only [dailySummaryData]
    simp only [List.map_map]
    have hp : List.Pairwise nameLe (selectedEmployees db caller.id filt) :=
      List.sorted_insertionSort nameLe _
    exact hp.map _ (fun a b hab => hab)
  · intro d' h'
    rw [h] at h'
    exact (Except.ok.inj h').symm

/-- C10 witness: on `sampleDB` the breakdown names come out sorted and the
result is unique. -/
theorem c10_breakdown_sorted_by_name_witness :
    List.Pairwise (fun a b : String => strLeB a.toList b.toList = true)
      ((dailySummaryData sampleDB 1 "2024-01-01" none).employee_breakdown.map
        (·.employee_name)) ∧
    ∀ d', dailySummary ⟨1, "manager"⟩ (some "2024-01-01") none sampleDB = .ok d' →
      d' = dailySummaryData sampleDB 1 "2024-01-01" none :=
  c10_breakdown_sorted_by_name ⟨1, "manager"⟩ "2024-01-01" none sampleDB _ rfl

/-- C4: on a date with zero checkins by the manager's direct reports, a
successful unfiltered DailySummary has zero total checkins and hours, its
breakdown has exactly one entry per role-`employee` direct report, and every
such report appears with all-zero fields. -/
theorem c4_zero_checkin_date (caller : Caller) (date : String) (db : DB)
    (d : SummaryData) (h : dailySummary caller (some date) none db = .ok d)
    (h0 : ∀ c ∈ db.checkins, c.checkinDay = date →
      isTeamCheckin db caller.id c = false) :
    d.team_summary.total_checkins = 0 ∧
    d.team_summary.total_hours_worked = 0 ∧
    d.employee_breakdown.length = (db.users.filter (matchesTeam caller.id)).length ∧
    (∀ u ∈ db.users, matchesTeam caller.id u = true →
      ∃ e ∈ d.employee_breakdown, e.employee_id = u.id ∧ e.total_checkins = 0 ∧
        e.clients_visited = 0 ∧ e.hours_worked = 0) := by
  obtain ⟨-, -, hd⟩ := dailySummary_ok_elim h
  subst hd
  have hz : ∀ u ∈ selectedEmployees db caller.id none, rawRow db date u =
      { employee_id := u.id, employee_name := u.name, employee_email := u.email,
        total_checkins := 0, clients_visited := 0, hours_worked := 0 } := by
    intro u hu
    obtain ⟨hul, hcond⟩ := mem_selectedEmployees.mp hu
    rw [Bool.and_eq_true, matchesTeam, Bool.and_eq_true, beq_iff_eq] at hcond
    exact rawRow_of_nil (dayCheckinsOf_eq_nil h0 hul hcond.1.1)
  dsimp only [dailySummaryData]
  refine ⟨?_, ?_, ?_, ?_⟩
  · apply List.sum_eq_zero
    intro x hx
    simp only [List.map_map, List.mem_map] at hx
    obtain ⟨u, hu, hxu⟩ := hx
    rw [← hxu, Function.comp_apply, hz u hu]
  · have hs : (((selectedEmployees db caller.id none).map (rawRow db date)).map
        (fun e => e.hours_worked)).sum = 0 := by
      apply List.sum_eq_zero
      intro x hx
      simp only [List.map_map, List.mem_map] at hx
      obtain ⟨u, hu, hxu⟩ := hx
      rw [← hxu, Function.comp_apply, hz u hu]
    rw [hs, round1_zero]
  · rw [List.length_map, List.length_map, length_selectedEmployees,
      List.filter_congr]
    intro u _
    rw [matchesFilter, Bool.and_true]
  · intro u hu hmt
    have hsel : u ∈ selectedEmployees db caller.id none :=
      mem_selectedEmployees.mpr ⟨hu, by rw [Bool.and_eq_true]; exact ⟨hmt, rfl⟩⟩
    refine ⟨roundRow (rawRow db date u),
      List.mem_map_of_mem roundRow (List.mem_map_of_mem (rawRow db date) hsel),
      ?_⟩
    rw [hz u hsel]
    exact ⟨rfl, rfl, rfl, round1_zero⟩

/-- C4 witness: `sampleDB` has no checkins on 2024-03-03, so the report for
that date is all zeros yet covers both employees. -/
theorem c4_zero_checkin_date_witness :
    (dailySummaryData sampleDB 1 "2024-03-03" none).team_summary.total_checkins = 0 ∧
    (dailySummaryData sampleDB 1 "2024-03-03" none).team_summary.total_hours_worked = 0 ∧
    (dailySummaryData sampleDB 1 "2024-03-03" none).employee_breakdown.length =
      (sampleDB.users.filter (matchesTeam 1)).length ∧
    (∀ u ∈ sampleDB.users, matchesTeam 1 u = true →
      ∃ e ∈ (dailySummaryData sampleDB 1 "2024-03-03" none).employee_breakdown,
        e.employee_id = u.id ∧ e.total_checkins = 0 ∧ e.clients_visited = 0 ∧
        e.hours_worked = 0) :=
  c4_zero_checkin_date ⟨1, "manager"⟩ "2024-03-03" sampleDB _ rfl (by decide)

/-- A cons cell rejected by the predicate drops out of a filter. -/
theorem filter_cons_false {α : Type} {p : α → Bool} {a : α} {l : List α}
    (h : p a = false) : List.filter p (a :: l) = List.filter p l := by
  simp [List.filter_cons, h]

/-- C5: per-checkin hours in a successful DailySummary: a checkin with a
checkout contributes `(checkout − checkin) · 24` hours, an open checkin
contributes `0`; each breakdown entry is the rounded sum of those
contributions over that employee's checkins whose calendar day is the
requested date; rows of the join have the requested day; and prepending a
checkin of a different calendar day to the ledger leaves the whole result
unchanged. -/
theorem c5_hours_per_checkin (caller : Caller) (date : String) (filt : Option Nat)
    (db : DB) (d : SummaryData)
    (h : dailySummary caller (some date) filt db = .ok d) :
    (∀ c : Checkin, ∀ t : ℚ, c.checkoutJD = some t →
      hoursOfRow c = (t - c.checkinJD) * 24) ∧
    (∀ c : Checkin, c.checkoutJD = none → hoursOfRow c = 0) ∧
    (∀ e ∈ d.employee_breakdown, e.hours_worked =
      round1 (((dayCheckinsOf db date e.employee_id).map hoursOfRow).sum)) ∧
    (∀ eid : Nat, ∀ c ∈ dayCheckinsOf db date eid, c.checkinDay = date) ∧
    (∀ c0 : Checkin, c0.checkinDay ≠ date →
      dailySummary caller (some date) filt ⟨db.users, c0 :: db.checkins⟩ = .ok d) := by
  obtain ⟨hr, hv, hd⟩ := dailySummary_ok_elim h
  refine ⟨?_, ?_, ?_, ?_, ?_⟩
  · intro c t ht
    simp [hoursOfRow, ht]
  · intro c ht
    simp [hoursOfRow, ht]
  · subst hd
    intro e he
    dsimp only [dailySummaryData] at he
    simp only [List.map_map, List.mem_map] at he
    obtain ⟨u, _, rfl⟩ := he
    rfl
  · intro eid c hc
    simp only [dayCheckinsOf, List.mem_filter, Bool.and_eq_true, beq_iff_eq] at hc
    exact hc.2.2
  · intro c0 hc0
    have hday : (c0.checkinDay == date) = false := beq_eq_false_iff_ne.mpr hc0
    have h1 : ∀ eid, dayCheckinsOf ⟨db.users, c0 :: db.checkins⟩ date eid =
        dayCheckinsOf db date eid := by
      intro eid
      unfold dayCheckinsOf
      rw [show (⟨db.users, c0 :: db.checkins⟩ : DB).checkins = c0 :: db.checkins from rfl]
      rw [filter_cons_false (by simp [hday])]
    have h2 : teamDayCheckins ⟨db.users, c0 :: db.checkins⟩ caller.id date =
        teamDayCheckins db caller.id date := by
      unfold teamDayCheckins
      rw [show (⟨db.users, c0 :: db.checkins⟩ : DB).checkins = c0 :: db.checkins from rfl]
      rw [filter_cons_false (by simp [hday])]
      rfl
    have h3 : rawRow ⟨db.users, c0 :: db.checkins⟩ date = rawRow db date := by
      funext u
      unfold rawRow
      rw [h1]
    have hpay : dailySummaryData ⟨db.users, c0 :: db.checkins⟩ caller.id date filt =
        dailySummaryData db caller.id date filt := by
      unfold dailySummaryData
      rw [show selectedEmployees ⟨db.users, c0 :: db.checkins⟩ caller.id filt =
        selectedEmployees db caller.id filt from rfl]
      rw [h3]
      rw [show uniqueClientsCount ⟨db.users, c0 :: db.checkins⟩ caller.id date =
        uniqueClientsCount db caller.id date from by
          unfold uniqueClientsCount; rw [h2]]
    simp [dailySummary, hr, hv, hpay, hd]

/-- C5 witness: on `sampleDB`, the per-checkin hours algebra and the
insensitivity to an off-date checkin, at 2024-01-01. -/
theorem c5_hours_per_checkin_witness :
    (∀ c : Checkin, ∀ t : ℚ, c.checkoutJD = some t →
      hoursOfRow c = (t - c.checkinJD) * 24) ∧
    (∀ c : Checkin, c.checkoutJD = none → hoursOfRow c = 0) ∧
    (∀ e ∈ (dailySummaryData sampleDB 1 "2024-01-01" none).employee_breakdown,
      e.hours_worked =
        round1 (((dayCheckinsOf sampleDB "2024-01-01" e.employee_id).map hoursOfRow).sum)) ∧
    (∀ eid : Nat, ∀ c ∈ dayCheckinsOf sampleDB "2024-01-01" eid,
      c.checkinDay = "2024-01-01") ∧
    (∀ c0 : Checkin, c0.checkinDay ≠ "2024-01-01" →
      dailySummary ⟨1, "manager"⟩ (some "2024-01-01") none
          ⟨sampleDB.users, c0 :: sampleDB.checkins⟩ =
        .ok (dailySummaryData sampleDB 1 "2024-01-01" none)) :=
  c5_hours_per_checkin ⟨1, "manager"⟩ "2024-01-01" none sampleDB _ rfl

/-- Sums of pointwise sums of naturals split. -/
theorem sum_map_add {α : Type} (es : List α) (g k : α → ℕ) :
    (es.map (fun e => g e + k e)).sum = (es.map g).sum + (es.map k).sum := by
  induction es with
  | nil => rfl
  | cons e es ih =>
    simp only [List.map_cons, List.sum_cons, ih]
    omega

/-- Counting rows matched by `P` is bounded by the per-`e` counts when every
`P`-row is claimed by some `e`. -/
theorem countP_le_sum_countP {C E : Type} (es : List E) (P : C → Bool)
    (f : E → C → Bool) :
    ∀ l : List C, (∀ c ∈ l, P c = true → ∃ e ∈ es, f e c = true) →
      l.countP P ≤ (es.map (fun e => l.countP (f e))).sum
  | [], _ => by simp
  | c :: l, hx => by
    have hx' : ∀ c' ∈ l, P c' = true → ∃ e ∈ es, f e c' = true :=
      fun c' hc' => hx c' (List.mem_cons_of_mem _ hc')
    have hih := countP_le_sum_countP es P f l hx'
    have hsum : (es.map (fun e => (c :: l).countP (f e))).sum =
        (es.map (fun e => l.countP (f e))).sum +
          (es.map (fun e => if f e c then 1 else 0)).sum := by
      simp only [List.countP_cons]
      rw [← sum_map_add]
    rw [List.countP_cons, hsum]
    by_cases hc : P c = true
    · obtain ⟨e0, he0, hf0⟩ := hx c (List.mem_cons_self c l) hc
      have hone : 1 ≤ (es.map (fun e => if f e c then 1 else 0)).sum := by
        have h1 : (if f e0 c = true then (1 : ℕ) else 0) = 1 := by simp [hf0]
        have hmem : (if f e0 c = true then (1 : ℕ) else 0) ∈
            es.map (fun e => if f e c then (1 : ℕ) else 0) :=
          List.mem_map_of_mem (fun e => if f e c then (1 : ℕ) else 0) he0
        rw [h1] at hmem
        exact List.single_le_sum (fun x _ => Nat.zero_le x) 1 hmem
      rw [if_pos hc]
      omega
    · rw [if_neg hc]
      omega

/-- C2 (counterexample): manager `1`'s only direct report has role `manager`,
so the breakdown is empty (`total_checkins = 0`) while the unique-clients
query still counts that report's checkin (`unique_clients_visited = 1`):
the claimed inequality fails on this successful call. -/
theorem c2_counterexample :
    (okData (dailySummary ⟨1, "manager"⟩ (some "2024-01-01") none managerReportDB)).map
        (fun d => (d.team_summary.unique_clients_visited,
          d.team_summary.total_checkins)) = some (1, 0) ∧
    ¬((1 : Nat) ≤ 0) := by
  exact ⟨by decide, by decide⟩

/-- C2 (amended): `unique_clients_visited ≤ total_checkins` holds for a
successful unfiltered call whenever every direct report of the caller has
role `employee` (the unique-clients query ignores both the role restriction
and the employee filter, so the unrestricted claim fails). -/
theorem c2_unique_le_total (caller : Caller) (date : String) (db : DB)
    (d : SummaryData)
    (hall : ∀ u ∈ db.users, u.managerId = some caller.id → u.role = "employee")
    (h : dailySummary caller (some date) none db = .ok d) :
    d.team_summary.unique_clients_visited ≤ d.team_summary.total_checkins := by
  obtain ⟨-, -, hd⟩ := dailySummary_ok_elim h
  subst hd
  dsimp only [dailySummaryData]
  have hu1 : uniqueClientsCount db caller.id date ≤
      (teamDayCheckins db caller.id date).length := by
    unfold uniqueClientsCount
    calc ((teamDayCheckins db caller.id date).map (·.clientId)).dedup.length
        ≤ ((teamDayCheckins db caller.id date).map (·.clientId)).length :=
          (List.dedup_sublist _).length_le
      _ = (teamDayCheckins db caller.id date).length := List.length_map _ _
  have hu2 : (teamDayCheckins db caller.id date).length =
      db.checkins.countP
        (fun c => c.checkinDay == date && isTeamCheckin db caller.id c) := by
    rw [teamDayCheckins, ← List.countP_eq_length_filter]
  have hx : ∀ c ∈ db.checkins,
      (c.checkinDay == date && isTeamCheckin db caller.id c) = true →
      ∃ e ∈ selectedEmployees db caller.id none,
        (c.employeeId == e.id && c.checkinDay == date) = true := by
    intro c _ hPc
    rw [Bool.and_eq_true] at hPc
    obtain ⟨hday, hteam⟩ := hPc
    rw [isTeamCheckin, List.any_eq_true] at hteam
    obtain ⟨u, hu, hcond⟩ := hteam
    rw [Bool.and_eq_true] at hcond
    obtain ⟨hid, hmid⟩ := hcond
    have hrole : u.role = "employee" := hall u hu (beq_iff_eq.mp hmid)
    refine ⟨u, mem_selectedEmployees.mpr ⟨hu, ?_⟩, ?_⟩
    · rw [Bool.and_eq_true, matchesTeam, Bool.and_eq_true]
      exact ⟨⟨hmid, beq_iff_eq.mpr hrole⟩, rfl⟩
    · rw [Bool.and_eq_true]
      exact ⟨beq_iff_eq.mpr (beq_iff_eq.mp hid).symm, hday⟩
  have hmain := countP_le_sum_countP (selectedEmployees db caller.id none)
    (fun c => c.checkinDay == date && isTeamCheckin db caller.id c)
    (fun u c => c.employeeId == u.id && c.checkinDay == date)
    db.checkins hx
  rw [hu2] at hu1
  refine le_trans (le_trans hu1 hmain) (le_of_eq ?_)
  simp only [List.map_map]
  apply congrArg List.sum
  apply List.map_congr_left
  intro u _
  show db.checkins.countP (fun c => c.employeeId == u.id && c.checkinDay == date) =
    (dayCheckinsOf db date u.id).length
  rw [dayCheckinsOf, ← List.countP_eq_length_filter]

/-- C2 witness: the amended inequality on `sampleDB`, where all direct
reports of manager `1` have role `employee`. -/
theorem c2_unique_le_total_witness :
    (dailySummaryData sampleDB 1 "2024-01-01" none).team_summary.unique_clients_visited ≤
      (dailySummaryData sampleDB 1 "2024-01-01" none).team_summary.total_checkins :=
  c2_unique_le_total ⟨1, "manager"⟩ "2024-01-01" sampleDB _ (by decide) rfl

/-- C9 (counterexample): with the `employee_id = 2` filter on `sampleDB`,
the successful result has `total_employees = 1` and breakdown ids `[2]`,
while two users (ids 2 and 3) have `manager_id = 1` and role `employee` —
so a filtered result does not cover exactly that set, contradicting the
claim's quantification over every DailySummary result. -/
theorem c9_counterexample :
    (okData (dailySummary ⟨1, "manager"⟩ (some "2024-01-01") (some 2) sampleDB)).map
        (fun d => (d.team_summary.total_employees,
          d.employee_breakdown.map (·.employee_id))) = some (1, [2]) ∧
    (sampleDB.users.filter (matchesTeam 1)).map (·.id) = [2, 3] := by
  exact ⟨by decide, by decide⟩

/-- C9 (amended): for a successful unfiltered DailySummary,
`total_employees` equals the breakdown length, every breakdown entry belongs
to a user with `manager_id` = caller and role exactly `employee`, every such
user appears, and (under distinct user ids) no direct report with a
non-`employee` role (e.g. `manager`) ever appears. -/
theorem c9_breakdown_covers_role_employees (caller : Caller) (date : String)
    (db : DB) (d : SummaryData)
    (h : dailySummary caller (some date) none db = .ok d) :
    d.team_summary.total_employees = d.employee_breakdown.length ∧
    (∀ e ∈ d.employee_breakdown, ∃ u ∈ db.users, u.managerId = some caller.id ∧
      u.role = "employee" ∧ e.employee_id = u.id) ∧
    (∀ u ∈ db.users, u.managerId = some caller.id → u.role = "employee" →
      ∃ e ∈ d.employee_breakdown, e.employee_id = u.id) ∧
    ((db.users.map (·.id)).Nodup → ∀ u ∈ db.users, u.role ≠ "employee" →
      ∀ e ∈ d.employee_breakdown, e.employee_id ≠ u.id) := by
  obtain ⟨-, -, hd⟩ := dailySummary_ok_elim h
  subst hd
  dsimp only [dailySummaryData]
  refine ⟨?_, ?_, ?_, ?_⟩
  · simp [List.length_map]
  · intro e he
    simp only [List.map_map, List.mem_map] at he
    obtain ⟨u, hu, rfl⟩ := he
    obtain ⟨hul, hcond⟩ := mem_selectedEmployees.mp hu
    rw [Bool.and_eq_true, matchesTeam, Bool.and_eq_true, beq_iff_eq, beq_iff_eq]
      at hcond
    exact ⟨u, hul, hcond.1.1, hcond.1.2, rfl⟩
  · intro u hu hm hr
    have hsel : u ∈ selectedEmployees db caller.id none :=
      mem_selectedEmployees.mpr ⟨hu, by
        rw [Bool.and_eq_true, matchesTeam, Bool.and_eq_true]
        exact ⟨⟨beq_iff_eq.mpr hm, beq_iff_eq.mpr hr⟩, rfl⟩⟩
    exact ⟨roundRow (rawRow db date u),
      List.mem_map_of_mem roundRow (List.mem_map_of_mem (rawRow db date) hsel), rfl⟩
  · intro hnd u hu hur e he heq
    simp only [List.map_map, List.mem_map] at he
    obtain ⟨v, hv, rfl⟩ := he
    obtain ⟨hvl, hcond⟩ := mem_selectedEmployees.mp hv
    rw [Bool.and_eq_true, matchesTeam, Bool.and_eq_true, beq_iff_eq, beq_iff_eq]
      at hcond
    have hvu : v = u := List.inj_on_of_nodup_map hnd hvl hu heq
    exact hur (hvu ▸ hcond.1.2)

/-- C9 witness: the amended coverage statement on `sampleDB` without a
filter. -/
theorem c9_breakdown_covers_role_employees_witness :
    (dailySummaryData sampleDB 1 "2024-01-01" none).team_summary.total_employees =
      (dailySummaryData sampleDB 1 "2024-01-01" none).employee_breakdown.length ∧
    (∀ e ∈ (dailySummaryData sampleDB 1 "2024-01-01" none).employee_breakdown,
      ∃ u ∈ sampleDB.users, u.managerId = some 1 ∧ u.role = "employee" ∧
        e.employee_id = u.id) ∧
    (∀ u ∈ sampleDB.users, u.managerId = some 1 → u.role = "employee" →
      ∃ e ∈ (dailySummaryData sampleDB 1 "2024-01-01" none).employee_breakdown,
        e.employee_id = u.id) ∧
    ((sampleDB.users.map (·.id)).Nodup → ∀ u ∈ sampleDB.users,
      u.role ≠ "employee" →
      ∀ e ∈ (dailySummaryData sampleDB 1 "2024-01-01" none).employee_breakdown,
        e.employee_id ≠ u.id) :=
  c9_breakdown_covers_role_employees ⟨1, "manager"⟩ "2024-01-01" sampleDB _ rfl

end FieldForce
